import Mathlib

/-!
Verification development for the IDS dashboard event ingestion and
aggregation engine (`ids-dashboard/app/page.tsx`: the webhook route
handlers `getClient`, `POST`, `GET`, and the dashboard aggregation
functions `computeTimeSeries`, `computeTitleBars` and the inline
summary statistics).

The TypeScript code is shallowly embedded: JSON scalar values are the
inductive `JSVal`; JavaScript `Date` values are `Option Int`
(milliseconds since epoch, `none` standing for an Invalid Date);
textual date parsing (`new Date(string)`) is an explicit function
parameter `parse : String → Option Int`; the MongoDB collection is a
`List StoredEvent` in insertion order; the module-level client cache is
an explicit `ConnState` threaded through `getClient`.
-/

namespace IDS

/-- JSON scalar values as they arrive in a webhook payload.
(Composite values — arrays, nested objects — behave like `vnum`/`vbool`
for every check the route performs: they are not strings, and they are
truthy; the scalar fragment suffices for the embedded checks.) -/
inductive JSVal where
  | vnull
  | vbool (b : Bool)
  | vnum (n : Int)
  | vstr (s : String)
deriving DecidableEq, Repr

/-- JavaScript truthiness of a defined value. -/
def JSVal.truthy : JSVal → Bool
  | .vnull => false
  | .vbool b => b
  | .vnum n => n != 0
  | .vstr s => s != ""

/-- `typeof v === 'string'`. -/
def JSVal.isString : JSVal → Bool
  | .vstr _ => true
  | _ => false

/-- Truthiness of a possibly-`undefined` value (`none` = the field was
absent, hence `undefined`, hence falsy). -/
def jsTruthy : Option JSVal → Bool
  | none => false
  | some v => v.truthy

/-- `typeof v === 'string'` on a possibly-`undefined` value. -/
def jsIsString : Option JSVal → Bool
  | none => false
  | some v => v.isString

/-- `new Date(v)` for a defined JSON scalar `v`: numbers are epoch
milliseconds, strings go through the textual parser (`none` = Invalid
Date), `null` coerces to 0, booleans to 0/1. -/
def jsDate (parse : String → Option Int) : JSVal → Option Int
  | .vnull => some 0
  | .vbool b => some (if b then 1 else 0)
  | .vnum n => some n
  | .vstr s => parse s

/-- `new Date(v)` where `v` may be `undefined` (`new Date(undefined)`
is an Invalid Date). -/
def jsDateOpt (parse : String → Option Int) : Option JSVal → Option Int
  | none => none
  | some v => jsDate parse v

/-- The fields of an ingestion payload that the `POST` handler ever
reads: it destructures `{ titre, date, recommendation, ip_source }`,
and `receivedAt` is carried along only to state that a client-supplied
value for it is ignored.  Each field is `Option JSVal`, `none` meaning
the key is absent from the JSON object. -/
structure Payload where
  titre : Option JSVal
  date : Option JSVal
  recommendation : Option JSVal
  ip_source : Option JSVal
  receivedAt : Option JSVal
deriving DecidableEq, Repr

/-- A record as inserted into the `events` collection by `POST`:
`titre` verbatim, `date` a `Date` (possibly invalid), `receivedAt` a
server-assigned valid timestamp, and the two optional fields present
exactly when the code set them. -/
structure StoredEvent where
  titre : String
  date : Option Int
  receivedAt : Int
  recommendation : Option JSVal
  ip_source : Option JSVal
deriving DecidableEq, Repr

/-- Outcome of the `POST` route: HTTP 400 with the validation message,
or HTTP 200 with the inserted id.  (The 500 store-failure path re-raises
I/O errors; the insert itself is modelled as succeeding.) -/
inductive PostResult where
  | invalidInput
  | inserted (id : Nat)
deriving DecidableEq, Repr

/-- The `POST` webhook handler: validate `titre`, normalize the record,
append it to the collection.  `now` is the current server time (both
`new Date(date/absent)` default and the `receivedAt` stamp); `parse`
models JavaScript textual date parsing; the returned `Nat` id models
the store-assigned `insertedId` as the insertion index. -/
def POST (parse : String → Option Int) (now : Int) (p : Payload)
    (store : List StoredEvent) : PostResult × List StoredEvent :=
  if !(jsTruthy p.titre) || !(jsIsString p.titre) then
    (.invalidInput, store)
  else
    let titreStr := match p.titre with
      | some (.vstr s) => s
      | _ => ""
    let eventToInsert : StoredEvent :=
      { titre := titreStr
        date := if jsTruthy p.date then jsDateOpt parse p.date else some now
        receivedAt := now
        recommendation := if jsTruthy p.recommendation then p.recommendation else none
        ip_source := if jsTruthy p.ip_source then p.ip_source else none }
    (.inserted store.length, store ++ [eventToInsert])

/-- The `{receivedAt: -1}` sort comparator: newest first. -/
def byReceivedDesc (a b : StoredEvent) : Bool :=
  b.receivedAt ≤ a.receivedAt

/-- `find({}).sort({receivedAt: -1}).limit(200)`: the collection sorted
by `receivedAt` descending, truncated to 200 records. -/
def fetchRecent (store : List StoredEvent) : List StoredEvent :=
  (store.mergeSort byReceivedDesc).take 200

/-- The `GET` handler: returns the recent window as a success; the
`catch` branch (store I/O failure) is the `Except.error` alternative,
never produced for an empty collection. -/
def GET (store : List StoredEvent) : Except String (List StoredEvent) :=
  .ok (fetchRecent store)

/-- The module-level mutable state of the route file: the cached
`MongoClient` (`let cachedClient: MongoClient | null = null`) plus a
fresh-id counter modelling `new MongoClient(uri)` allocation. -/
structure ConnState where
  cachedClient : Option Nat
  nextClientId : Nat
deriving DecidableEq, Repr

/-- `getClient()`: return the cached client if any; otherwise allocate
a new client, cache it, and attempt to connect.  `connectFails c` models
whether `await cachedClient.connect()` throws for client `c`.  The
returned `Bool` is a ghost observation recording whether this call
constructed a new client and attempted a connection (the source order
is: assign `cachedClient`, then `connect()` — so the cache is written
before the connect step can fail). -/
def getClient (connectFails : Nat → Bool) (s : ConnState) :
    (Except Unit Nat × Bool) × ConnState :=
  match s.cachedClient with
  | some c => ((.ok c, false), s)
  | none =>
    let c := s.nextClientId
    let s' : ConnState := ⟨some c, s.nextClientId + 1⟩
    if connectFails c then ((.error (), true), s')
    else ((.ok c, true), s')

/-- The event shape consumed by the dashboard page (`interface
EventData`): `titre` and `date` are strings, the rest optional
strings. -/
structure EventData where
  titre : String
  date : String
  recommendation : Option String
  ip_source : Option String
  receivedAtField : Option String
deriving DecidableEq, Repr

/-- Truthiness of an optional string field (`undefined` and `""` are
falsy). -/
def strTruthy : Option String → Bool
  | none => false
  | some s => s != ""

/-- One step of building a JavaScript record of counters:
`counts[key] = (counts[key] || 0) + 1`.  A record is an association
list in key-insertion order with pairwise-distinct keys. -/
def bump (acc : List (String × Nat)) (k : String) : List (String × Nat) :=
  if acc.any (fun p => p.1 == k) then
    acc.map (fun p => if p.1 == k then (p.1, p.2 + 1) else p)
  else
    acc ++ [(k, 1)]

/-- `events.forEach(ev => { counts[key(ev)] = (counts[key(ev)] || 0) + 1 })`. -/
def tally (ks : List String) : List (String × Nat) :=
  ks.foldl bump []

/-- `counts[l]` for a label `l` (0 models `undefined`, never hit for a
key of the record). -/
def lookupCount (d : List (String × Nat)) (k : String) : Nat :=
  match d.find? (fun p => p.1 == k) with
  | some p => p.2
  | none => 0

/-- JavaScript default `.sort()`: lexicographic string comparison. -/
def strLe (a b : String) : Bool :=
  a ≤ b

/-- The comparator `(a, b) => d[b] - d[a]`: count descending. -/
def byCountDesc (d : List (String × Nat)) (a b : String) : Bool :=
  lookupCount d b ≤ lookupCount d a

/-- `computeTimeSeries`: group events by bucket key and emit the keys
sorted ascending with their counts.  The per-event bucket key
`keyOf ev` embeds `new Date(ev.date || ev.receivedAt ||
Date.now()).toISOString().slice(0, 10 or 13)` — a pure per-event
computation whose internals the aggregation structure does not depend
on. -/
def computeTimeSeries (keyOf : EventData → String) (events : List EventData) :
    List String × List Nat :=
  let counts := tally (events.map keyOf)
  let labels := (counts.map Prod.fst).mergeSort strLe
  (labels, labels.map (lookupCount counts))

/-- `computeTitleBars`: group events by exact `titre` and emit the
labels sorted by count descending (a stable sort in JavaScript) with
their counts. -/
def computeTitleBars (events : List EventData) : List String × List Nat :=
  let d := tally (events.map (fun ev => ev.titre))
  let labels := (d.map Prod.fst).mergeSort (byCountDesc d)
  (labels, labels.map (lookupCount d))

/-- `new Set(events.filter(e => e.ip_source).map(e => e.ip_source)).size`. -/
def uniqueIPs (events : List EventData) : Nat :=
  (((events.filter (fun e => strTruthy e.ip_source)).map
    (fun e => e.ip_source)).dedup).length

/-- `events.filter(e => e.recommendation).length`. -/
def eventsWithRecommendation (events : List EventData) : Nat :=
  (events.filter (fun e => strTruthy e.recommendation)).length

/-- `events.length > 0 ? events[0] : null`. -/
def lastEvent (events : List EventData) : Option EventData :=
  events.head?

/-- The summary-statistics block of the dashboard (total count, unique
source count, recommendation count, most recent event), bundling the
inline computations `events.length`, `uniqueIPs`,
`eventsWithRecommendation` and `lastEvent`. -/
def summaryStats (events : List EventData) : Nat × Nat × Nat × Option EventData :=
  (events.length, uniqueIPs events, eventsWithRecommendation events, lastEvent events)

/-! ### Helper lemmas about the JavaScript counter-record (`tally`) -/

lemma any_fst_eq_mem (acc : List (String × Nat)) (k : String) :
    acc.any (fun p => p.1 == k) = true ↔ k ∈ acc.map Prod.fst := by
  simp only [List.any_eq_true, List.mem_map, beq_iff_eq]

lemma bump_map_fst_mem (acc : List (String × Nat)) (k : String)
    (h : k ∈ acc.map Prod.fst) :
    (bump acc k).map Prod.fst = acc.map Prod.fst := by
  rw [bump, if_pos ((any_fst_eq_mem acc k).2 h)]
  rw [List.map_map]
  apply List.map_congr_left
  intro p _
  simp only [Function.comp_apply]
  split <;> rfl

lemma bump_map_fst_new (acc : List (String × Nat)) (k : String)
    (h : k ∉ acc.map Prod.fst) :
    (bump acc k).map Prod.fst = acc.map Prod.fst ++ [k] := by
  rw [bump, if_neg]
  · simp
  · intro hc
    exact h ((any_fst_eq_mem acc k).1 hc)

lemma bump_nodup (acc : List (String × Nat)) (k : String)
    (h : (acc.map Prod.fst).Nodup) : ((bump acc k).map Prod.fst).Nodup := by
  by_cases hk : k ∈ acc.map Prod.fst
  · rw [bump_map_fst_mem acc k hk]
    exact h
  · rw [bump_map_fst_new acc k hk]
    simp [List.nodup_append, h, hk]

lemma bump_mem_fst (acc : List (String × Nat)) (k a : String) :
    a ∈ (bump acc k).map Prod.fst ↔ a ∈ acc.map Prod.fst ∨ a = k := by
  by_cases hk : k ∈ acc.map Prod.fst
  · rw [bump_map_fst_mem acc k hk]
    constructor
    · exact Or.inl
    · rintro (h | rfl)
      · exact h
      · exact hk
  · rw [bump_map_fst_new acc k hk]
    simp

lemma incr_sum (acc : List (String × Nat)) (k : String) :
    ((acc.map (fun p => if p.1 == k then (p.1, p.2 + 1) else p)).map Prod.snd).sum
      = (acc.map Prod.snd).sum + acc.countP (fun p => p.1 == k) := by
  induction acc with
  | nil => simp
  | cons p rest ih =>
    by_cases hp : (p.1 == k) = true
    · simp only [List.map_cons, List.sum_cons, List.countP_cons, if_pos hp, ih]
      omega
    · simp only [List.map_cons, List.sum_cons, List.countP_cons, if_neg hp, ih]
      omega

lemma countP_fst_eq_count (acc : List (String × Nat)) (k : String) :
    acc.countP (fun p => p.1 == k) = (acc.map Prod.fst).count k := by
  rw [List.count_eq_countP, List.countP_map]
  rfl

lemma bump_sum (acc : List (String × Nat)) (k : String)
    (h : (acc.map Prod.fst).Nodup) :
    ((bump acc k).map Prod.snd).sum = (acc.map Prod.snd).sum + 1 := by
  by_cases hk : k ∈ acc.map Prod.fst
  · rw [bump, if_pos ((any_fst_eq_mem acc k).2 hk), incr_sum,
      countP_fst_eq_count]
    have h1 : (acc.map Prod.fst).count k ≤ 1 :=
      List.nodup_iff_count_le_one.1 h k
    have h2 : 0 < (acc.map Prod.fst).count k := List.count_pos_iff.2 hk
    omega
  · rw [bump, if_neg]
    · simp
    · intro hc
      exact hk ((any_fst_eq_mem acc k).1 hc)

lemma tallyAux_nodup (ks : List String) :
    ∀ acc, (acc.map Prod.fst).Nodup → ((ks.foldl bump acc).map Prod.fst).Nodup := by
  induction ks with
  | nil => intro acc h; exact h
  | cons k ks ih =>
    intro acc h
    exact ih _ (bump_nodup _ _ h)

lemma tallyAux_mem (ks : List String) :
    ∀ acc a, a ∈ (ks.foldl bump acc).map Prod.fst ↔ a ∈ acc.map Prod.fst ∨ a ∈ ks := by
  induction ks with
  | nil => simp
  | cons k ks ih =>
    intro acc a
    rw [List.foldl_cons, ih, bump_mem_fst]
    simp only [List.mem_cons]
    tauto

lemma tallyAux_sum (ks : List String) :
    ∀ acc, (acc.map Prod.fst).Nodup →
      ((ks.foldl bump acc).map Prod.snd).sum = (acc.map Prod.snd).sum + ks.length := by
  induction ks with
  | nil => simp
  | cons k ks ih =>
    intro acc h
    rw [List.foldl_cons, ih _ (bump_nodup _ _ h), bump_sum _ _ h]
    simp only [List.length_cons]
    omega

lemma tally_fst_nodup (ks : List String) : ((tally ks).map Prod.fst).Nodup :=
  tallyAux_nodup ks [] (by simp)

lemma tally_fst_mem (ks : List String) (a : String) :
    a ∈ (tally ks).map Prod.fst ↔ a ∈ ks := by
  rw [tally, tallyAux_mem]
  simp

lemma tally_sum (ks : List String) : ((tally ks).map Prod.snd).sum = ks.length := by
  rw [tally, tallyAux_sum ks [] (by simp)]
  simp

lemma lookupCount_mem (d : List (String × Nat)) (h : (d.map Prod.fst).Nodup) :
    ∀ p ∈ d, lookupCount d p.1 = p.2 := by
  induction d with
  | nil => simp
  | cons q rest ih =>
    intro e he
    rcases List.mem_cons.1 he with rfl | her
    · rw [lookupCount, List.find?_cons_of_pos _ (by simp)]
    · have hne : q.1 ≠ e.1 := by
        intro hqp
        have : q.1 ∈ rest.map Prod.fst := hqp ▸ List.mem_map_of_mem Prod.fst her
        exact (List.nodup_cons.1 (by simpa using h)).1 this
      have hskip : List.find? (fun r => r.1 == e.1) (q :: rest)
          = List.find? (fun r => r.1 == e.1) rest :=
        List.find?_cons_of_neg _ (by simp [hne])
      have htail := ih (List.nodup_cons.1 (by simpa using h)).2 e her
      rw [lookupCount] at htail ⊢
      rw [hskip]
      exact htail

lemma map_lookup_eq_snd (d : List (String × Nat)) (h : (d.map Prod.fst).Nodup) :
    (d.map Prod.fst).map (lookupCount d) = d.map Prod.snd := by
  rw [List.map_map]
  apply List.map_congr_left
  intro p hp
  exact lookupCount_mem d h p hp

lemma chart_sum (d : List (String × Nat)) (h : (d.map Prod.fst).Nodup)
    (le : String → String → Bool) :
    (List.map (lookupCount d) (List.mergeSort (d.map Prod.fst) le)).sum
      = (d.map Prod.snd).sum := by
  have hperm : List.Perm (List.mergeSort (d.map Prod.fst) le) (d.map Prod.fst) :=
    List.mergeSort_perm _ _
  rw [(hperm.map (lookupCount d)).sum_eq, map_lookup_eq_snd d h]

/-! ### Helper lemmas about the `POST` handler -/

/-- On a payload whose `titre` is a non-empty string, `POST` appends
exactly the normalized record the source constructs. -/
lemma POST_success (parse : String → Option Int) (now : Int)
    (store : List StoredEvent) (p : Payload) (s : String)
    (hs : s ≠ "") (ht : p.titre = some (.vstr s)) :
    POST parse now p store =
      (.inserted store.length,
       store ++ [{ titre := s
                   date := if jsTruthy p.date then jsDateOpt parse p.date else some now
                   receivedAt := now
                   recommendation :=
                     if jsTruthy p.recommendation then p.recommendation else none
                   ip_source :=
                     if jsTruthy p.ip_source then p.ip_source else none }]) := by
  simp [POST, ht, jsTruthy, JSVal.truthy, jsIsString, JSVal.isString, hs]

/-! ### Claim theorems -/

/-- C1: for every ingestion payload in which `titre` is missing, is not
a string, or is the empty string, `POST` answers with the validation
error (HTTP 400) and the store is left unchanged — no record is
inserted. -/
theorem POST_rejects_invalid_titre (parse : String → Option Int) (now : Int)
    (p : Payload) (store : List StoredEvent)
    (h : p.titre = none ∨ (∃ v, p.titre = some v ∧ v.isString = false) ∨
         p.titre = some (.vstr "")) :
    POST parse now p store = (.invalidInput, store) := by
  have hc : (!(jsTruthy p.titre) || !(jsIsString p.titre)) = true := by
    rcases h with h | ⟨v, hv, hns⟩ | h
    · simp [h, jsTruthy]
    · simp [hv, jsIsString, hns]
    · simp [h, jsTruthy, JSVal.truthy]
  simp [POST, hc]

/-- Witness for C1: the empty payload `{}` is rejected with the store
(here empty) unchanged. -/
theorem POST_rejects_invalid_titre_witness :
    ((Payload.mk none none none none none).titre = none ∨
     (∃ v, (Payload.mk none none none none none).titre = some v ∧
       v.isString = false) ∨
     (Payload.mk none none none none none).titre = some (.vstr "")) ∧
    POST (fun _ => none) 0 (Payload.mk none none none none none) [] =
      (.invalidInput, []) :=
  ⟨Or.inl rfl,
   POST_rejects_invalid_titre (fun _ => none) 0
     (Payload.mk none none none none none) [] (Or.inl rfl)⟩

/-- C2 counterexample: a payload whose `date` is present and truthy but
unparsable (`new Date("not-a-date")` is an Invalid Date, embedded by a
parser that rejects it) is stored with an Invalid Date as event time —
not with the current time `1000` — refuting the claim that an
unparsable `date` is replaced by the current time. -/
theorem POST_unparsable_date_stores_invalid :
    (POST (fun _ => none) 1000
      (Payload.mk (some (.vstr "Port Scan")) (some (.vstr "not-a-date"))
        none none none) []).2.map StoredEvent.date = [none] ∧
    (none : Option Int) ≠ some 1000 := by
  constructor
  · rfl
  · simp

/-- C2 amended: the current time is substituted for the event time
exactly when the payload's `date` is absent or falsy (e.g. the empty
string); a present, truthy `date` is passed to the date parser and its
result — an Invalid Date when unparsable — is stored as is.  Either
way the substitution is silent: ingestion succeeds. -/
theorem POST_date_best_effort (parse : String → Option Int) (now : Int)
    (store : List StoredEvent) (p : Payload) (s : String)
    (hs : s ≠ "") (ht : p.titre = some (.vstr s)) :
    ∃ ev, (POST parse now p store).1 = .inserted store.length ∧
      (POST parse now p store).2 = store ++ [ev] ∧
      (jsTruthy p.date = false → ev.date = some now) ∧
      (jsTruthy p.date = true → ev.date = jsDateOpt parse p.date) := by
  refine ⟨{ titre := s
            date := if jsTruthy p.date then jsDateOpt parse p.date else some now
            receivedAt := now
            recommendation :=
              if jsTruthy p.recommendation then p.recommendation else none
            ip_source :=
              if jsTruthy p.ip_source then p.ip_source else none },
          ?_, ?_, ?_, ?_⟩
  · rw [POST_success parse now store p s hs ht]
  · rw [POST_success parse now store p s hs ht]
  · intro hd
    simp [hd]
  · intro hd
    simp [hd]

/-- Witness for C2 amended: a payload with valid `titre` and no `date`
is inserted with the current time `7` as event time. -/
theorem POST_date_best_effort_witness :
    ("Scan" : String) ≠ "" ∧
    (Payload.mk (some (.vstr "Scan")) none none none none).titre =
      some (.vstr "Scan") ∧
    ∃ ev,
      (POST (fun _ => none) 7
        (Payload.mk (some (.vstr "Scan")) none none none none) []).1 =
        .inserted ([] : List StoredEvent).length ∧
      (POST (fun _ => none) 7
        (Payload.mk (some (.vstr "Scan")) none none none none) []).2 =
        [] ++ [ev] ∧
      (jsTruthy (Payload.mk (some (.vstr "Scan")) none none none none).date =
        false → ev.date = some 7) ∧
      (jsTruthy (Payload.mk (some (.vstr "Scan")) none none none none).date =
        true → ev.date = jsDateOpt (fun _ => none)
          (Payload.mk (some (.vstr "Scan")) none none none none).date) :=
  ⟨by decide, rfl,
   POST_date_best_effort (fun _ => none) 7 []
     (Payload.mk (some (.vstr "Scan")) none none none none) "Scan"
     (by decide) rfl⟩

/-- C3: the aggregation functions are total Lean functions over any
window, and on the empty window `computeTimeSeries` and
`computeTitleBars` produce empty label/count sequences while the
summary statistics are `totalCount = 0`, `uniqueSourceCount = 0`,
`recommendationCount = 0`, `mostRecent = none`. -/
theorem aggregation_total_empty_window (keyOf : EventData → String) :
    computeTimeSeries keyOf [] = ([], []) ∧
    computeTitleBars [] = ([], []) ∧
    summaryStats [] = (0, 0, 0, none) := by
  refine ⟨?_, ?_, ?_⟩
  · simp [computeTimeSeries, tally]
  · simp [computeTitleBars, tally]
  · rfl

/-! ### Comparator facts needed for the sortedness claims -/

lemma strLe_trans : ∀ (a b c : String), strLe a b → strLe b c → strLe a c := by
  intro a b c h1 h2
  simp only [strLe, decide_eq_true_eq] at *
  exact le_trans h1 h2

lemma strLe_total : ∀ (a b : String), strLe a b || strLe b a := by
  intro a b
  simp only [strLe, Bool.or_eq_true, decide_eq_true_eq]
  exact le_total a b

lemma byCountDesc_trans (d : List (String × Nat)) :
    ∀ (a b c : String), byCountDesc d a b → byCountDesc d b c → byCountDesc d a c := by
  intro a b c h1 h2
  simp only [byCountDesc, decide_eq_true_eq] at *
  omega

lemma byCountDesc_total (d : List (String × Nat)) :
    ∀ (a b : String), byCountDesc d a b || byCountDesc d b a := by
  intro a b
  simp only [byCountDesc, Bool.or_eq_true, decide_eq_true_eq]
  omega

lemma byReceivedDesc_trans :
    ∀ (a b c : StoredEvent), byReceivedDesc a b → byReceivedDesc b c → byReceivedDesc a c := by
  intro a b c h1 h2
  simp only [byReceivedDesc, decide_eq_true_eq] at *
  omega

lemma byReceivedDesc_total :
    ∀ (a b : StoredEvent), byReceivedDesc a b || byReceivedDesc b a := by
  intro a b
  simp only [byReceivedDesc, Bool.or_eq_true, decide_eq_true_eq]
  omega

/-- C4: for every window of events, the `computeTimeSeries` bucket keys
are strictly sorted ascending (hence no key appears twice), the counts
sum to the window size, and a key occurs in the output exactly when
some event of the window falls in that bucket — empty buckets are
simply absent. -/
theorem computeTimeSeries_window_spec (keyOf : EventData → String)
    (events : List EventData) :
    ((computeTimeSeries keyOf events).1).Pairwise (· < ·) ∧
    ((computeTimeSeries keyOf events).2).sum = events.length ∧
    ∀ l, (l ∈ (computeTimeSeries keyOf events).1 ↔ l ∈ events.map keyOf) := by
  have hnd := tally_fst_nodup (events.map keyOf)
  refine ⟨?_, ?_, ?_⟩
  · have hperm :=
      List.mergeSort_perm ((tally (events.map keyOf)).map Prod.fst) strLe
    have hnd2 :
        (List.mergeSort ((tally (events.map keyOf)).map Prod.fst) strLe).Nodup :=
      hperm.nodup_iff.mpr hnd
    have hsorted :=
      List.sorted_mergeSort strLe_trans strLe_total
        ((tally (events.map keyOf)).map Prod.fst)
    simp only [computeTimeSeries]
    refine (hsorted.and hnd2).imp ?_
    rintro a b ⟨h1, h2⟩
    have hle : a ≤ b := by simpa [strLe] using h1
    exact lt_of_le_of_ne hle h2
  · simp only [computeTimeSeries]
    rw [chart_sum _ hnd strLe, tally_sum, List.length_map]
  · intro l
    simp only [computeTimeSeries, List.mem_mergeSort, tally_fst_mem]

/-- C5: for every window of events, `computeTitleBars` groups by exact
`titre` match: every distinct title of the window appears exactly once
as a label (labels are duplicate-free and a string is a label exactly
when it is the title of some event), the counts sum to the window
size, and the counts are emitted in non-increasing order. -/
theorem computeTitleBars_window_spec (events : List EventData) :
    ((computeTitleBars events).1).Nodup ∧
    (∀ l, (l ∈ (computeTitleBars events).1 ↔
      l ∈ events.map (fun e => e.titre))) ∧
    ((computeTitleBars events).2).sum = events.length ∧
    ((computeTitleBars events).2).Pairwise (fun a b => b ≤ a) := by
  have hnd := tally_fst_nodup (events.map (fun e => e.titre))
  refine ⟨?_, ?_, ?_, ?_⟩
  · simp only [computeTitleBars]
    exact (List.mergeSort_perm _ _).nodup_iff.mpr hnd
  · intro l
    simp only [computeTitleBars, List.mem_mergeSort, tally_fst_mem]
  · simp only [computeTitleBars]
    rw [chart_sum _ hnd _, tally_sum, List.length_map]
  · simp only [computeTitleBars]
    have hsorted :=
      List.sorted_mergeSort
        (byCountDesc_trans (tally (events.map (fun e => e.titre))))
        (byCountDesc_total (tally (events.map (fun e => e.titre))))
        ((tally (events.map (fun e => e.titre))).map Prod.fst)
    rw [List.pairwise_map]
    refine hsorted.imp ?_
    intro a b h
    simpa [byCountDesc] using h

/-- C6: the `GET` handler returns the window produced by
`fetchRecent`: at most 200 events, ordered by `receivedAt` descending
(newest first); on the empty store it returns the empty sequence as a
success, not an error. -/
theorem GET_window_spec (store : List StoredEvent) :
    GET store = .ok (fetchRecent store) ∧
    (fetchRecent store).length ≤ 200 ∧
    (fetchRecent store).Pairwise (fun a b => b.receivedAt ≤ a.receivedAt) ∧
    GET ([] : List StoredEvent) = .ok [] := by
  refine ⟨rfl, ?_, ?_, ?_⟩
  · exact List.length_take_le _ _
  · have hsorted :=
      List.sorted_mergeSort byReceivedDesc_trans byReceivedDesc_total store
    exact (List.Pairwise.sublist (List.take_sublist 200 _) hsorted).imp
      (fun h => by simpa [byReceivedDesc] using h)
  · simp [GET, fetchRecent]

/-- C7: the stored record's `receivedAt` is the server time at
ingestion, and a client-supplied `receivedAt` has no effect: two
payloads that differ only in that field produce identical results, and
every record the call appends (none on validation failure, one on
success) carries `receivedAt = now`. -/
theorem POST_receivedAt_server_assigned (parse : String → Option Int)
    (now : Int) (store : List StoredEvent) (t d r i a1 a2 : Option JSVal) :
    POST parse now (Payload.mk t d r i a1) store =
      POST parse now (Payload.mk t d r i a2) store ∧
    ((POST parse now (Payload.mk t d r i a1) store).2.drop store.length).map
        StoredEvent.receivedAt =
      List.replicate
        (((POST parse now (Payload.mk t d r i a1) store).2.drop
          store.length).length) now := by
  constructor
  · rfl
  · by_cases hg : (!(jsTruthy t) || !(jsIsString t)) = true
    · simp [POST, hg]
    · simp [POST, hg, List.drop_left]

/-- C8: the optional fields `recommendation` and `ip_source` are stored
exactly when present and non-empty in the payload, verbatim; an absent
or empty field is omitted from the stored record (never stored as an
empty value). -/
theorem POST_optional_fields_passthrough (parse : String → Option Int)
    (now : Int) (store : List StoredEvent) (p : Payload) (s : String)
    (hs : s ≠ "") (ht : p.titre = some (.vstr s))
    (hr : p.recommendation = none ∨ ∃ t, p.recommendation = some (.vstr t))
    (hi : p.ip_source = none ∨ ∃ t, p.ip_source = some (.vstr t)) :
    ∃ ev, (POST parse now p store).2 = store ++ [ev] ∧
      ((∃ t, t ≠ "" ∧ p.recommendation = some (.vstr t) ∧
          ev.recommendation = some (.vstr t)) ∨
       (ev.recommendation = none ∧
        (p.recommendation = none ∨ p.recommendation = some (.vstr "")))) ∧
      ((∃ t, t ≠ "" ∧ p.ip_source = some (.vstr t) ∧
          ev.ip_source = some (.vstr t)) ∨
       (ev.ip_source = none ∧
        (p.ip_source = none ∨ p.ip_source = some (.vstr "")))) := by
  refine ⟨{ titre := s
            date := if jsTruthy p.date then jsDateOpt parse p.date else some now
            receivedAt := now
            recommendation :=
              if jsTruthy p.recommendation then p.recommendation else none
            ip_source :=
              if jsTruthy p.ip_source then p.ip_source else none },
          ?_, ?_, ?_⟩
  · rw [POST_success parse now store p s hs ht]
  · rcases hr with h | ⟨t, h⟩
    · exact Or.inr ⟨by simp [h, jsTruthy], Or.inl h⟩
    · by_cases ht' : t = ""
      · subst ht'
        exact Or.inr ⟨by simp [h, jsTruthy, JSVal.truthy], Or.inr h⟩
      · refine Or.inl ⟨t, ht', h, ?_⟩
        simp [h, jsTruthy, JSVal.truthy, ht']
  · rcases hi with h | ⟨t, h⟩
    · exact Or.inr ⟨by simp [h, jsTruthy], Or.inl h⟩
    · by_cases ht' : t = ""
      · subst ht'
        exact Or.inr ⟨by simp [h, jsTruthy, JSVal.truthy], Or.inr h⟩
      · refine Or.inl ⟨t, ht', h, ?_⟩
        simp [h, jsTruthy, JSVal.truthy, ht']

/-- Witness for C8: a payload with a non-empty `recommendation` and no
`ip_source` stores the recommendation verbatim and omits the source
address. -/
theorem POST_optional_fields_passthrough_witness :
    ("Port Scan" : String) ≠ "" ∧
    (Payload.mk (some (.vstr "Port Scan")) none
      (some (.vstr "Update the firewall")) none none).titre =
      some (.vstr "Port Scan") ∧
    ((Payload.mk (some (.vstr "Port Scan")) none
      (some (.vstr "Update the firewall")) none none).recommendation = none ∨
     ∃ t, (Payload.mk (some (.vstr "Port Scan")) none
      (some (.vstr "Update the firewall")) none none).recommendation =
        some (.vstr t)) ∧
    ((Payload.mk (some (.vstr "Port Scan")) none
      (some (.vstr "Update the firewall")) none none).ip_source = none ∨
     ∃ t, (Payload.mk (some (.vstr "Port Scan")) none
      (some (.vstr "Update the firewall")) none none).ip_source =
        some (.vstr t)) ∧
    (∃ ev, (POST (fun _ => none) 3
        (Payload.mk (some (.vstr "Port Scan")) none
          (some (.vstr "Update the firewall")) none none) []).2 = [] ++ [ev] ∧
      ((∃ t, t ≠ "" ∧
          (Payload.mk (some (.vstr "Port Scan")) none
            (some (.vstr "Update the firewall")) none none).recommendation =
            some (.vstr t) ∧ ev.recommendation = some (.vstr t)) ∨
       (ev.recommendation = none ∧
        ((Payload.mk (some (.vstr "Port Scan")) none
          (some (.vstr "Update the firewall")) none none).recommendation =
            none ∨
         (Payload.mk (some (.vstr "Port Scan")) none
          (some (.vstr "Update the firewall")) none none).recommendation =
            some (.vstr "")))) ∧
      ((∃ t, t ≠ "" ∧
          (Payload.mk (some (.vstr "Port Scan")) none
            (some (.vstr "Update the firewall")) none none).ip_source =
            some (.vstr t) ∧ ev.ip_source = some (.vstr t)) ∨
       (ev.ip_source = none ∧
        ((Payload.mk (some (.vstr "Port Scan")) none
          (some (.vstr "Update the firewall")) none none).ip_source = none ∨
         (Payload.mk (some (.vstr "Port Scan")) none
          (some (.vstr "Update the firewall")) none none).ip_source =
            some (.vstr ""))))) :=
  ⟨by decide, rfl, Or.inr ⟨"Update the firewall", rfl⟩, Or.inl rfl,
   POST_optional_fields_passthrough (fun _ => none) 3 []
     (Payload.mk (some (.vstr "Port Scan")) none
       (some (.vstr "Update the firewall")) none none) "Port Scan"
     (by decide) rfl (Or.inr ⟨"Update the firewall", rfl⟩) (Or.inl rfl)⟩

/-- C9: `getClient` is idempotent across a process lifetime — starting
from an empty cache, a first call whose connect step succeeds returns
the freshly constructed client and caches it, and any subsequent call
returns the very same handle without constructing a new client or
attempting another connection (the ghost flag is `false` and the state
is unchanged). -/
theorem getClient_idempotent (cf cf' : Nat → Bool) (s : ConnState)
    (h0 : s.cachedClient = none) (hc : cf s.nextClientId = false) :
    getClient cf s =
      ((.ok s.nextClientId, true),
       ConnState.mk (some s.nextClientId) (s.nextClientId + 1)) ∧
    getClient cf' (ConnState.mk (some s.nextClientId) (s.nextClientId + 1)) =
      ((.ok s.nextClientId, false),
       ConnState.mk (some s.nextClientId) (s.nextClientId + 1)) := by
  obtain ⟨cc, n⟩ := s
  dsimp at h0 hc
  subst h0
  constructor
  · simp [getClient, hc]
  · simp [getClient]

/-- Witness for C9: from the initial state, with a connect step that
succeeds, the second call returns the cached client 0 untouched. -/
theorem getClient_idempotent_witness :
    (ConnState.mk none 0).cachedClient = none ∧
    (fun _ : Nat => false) (ConnState.mk none 0).nextClientId = false ∧
    (getClient (fun _ => false) (ConnState.mk none 0) =
      ((.ok 0, true), ConnState.mk (some 0) 1) ∧
     getClient (fun _ => true) (ConnState.mk (some 0) 1) =
      ((.ok 0, false), ConnState.mk (some 0) 1)) :=
  ⟨rfl, rfl,
   getClient_idempotent (fun _ => false) (fun _ => true)
     (ConnState.mk none 0) rfl rfl⟩

/-- C10: if the first `getClient` call fails at the connect step, the
module-level cache is nevertheless left holding the newly constructed
client (the assignment precedes `connect()`), so every subsequent call
— whatever the connect behaviour would be — returns that same
never-connected client with no new client construction and no new
connection attempt, and leaves the state unchanged (hence this holds
for the remainder of the process lifetime). -/
theorem getClient_failed_connect_caches (cf cf' : Nat → Bool) (s : ConnState)
    (h0 : s.cachedClient = none) (hc : cf s.nextClientId = true) :
    getClient cf s =
      ((.error (), true),
       ConnState.mk (some s.nextClientId) (s.nextClientId + 1)) ∧
    getClient cf' (ConnState.mk (some s.nextClientId) (s.nextClientId + 1)) =
      ((.ok s.nextClientId, false),
       ConnState.mk (some s.nextClientId) (s.nextClientId + 1)) := by
  obtain ⟨cc, n⟩ := s
  dsimp at h0 hc
  subst h0
  constructor
  · simp [getClient, hc]
  · simp [getClient]

/-- Witness for C10: from the initial state, with a connect step that
always fails, the first call errors yet caches client 0, and the next
call returns that never-connected client without a new attempt. -/
theorem getClient_failed_connect_caches_witness :
    (ConnState.mk none 0).cachedClient = none ∧
    (fun _ : Nat => true) (ConnState.mk none 0).nextClientId = true ∧
    (getClient (fun _ => true) (ConnState.mk none 0) =
      ((.error (), true), ConnState.mk (some 0) 1) ∧
     getClient (fun _ => true) (ConnState.mk (some 0) 1) =
      ((.ok 0, false), ConnState.mk (some 0) 1)) :=
  ⟨rfl, rfl,
   getClient_failed_connect_caches (fun _ => true) (fun _ => true)
     (ConnState.mk none 0) rfl rfl⟩

end IDS
